import Mathlib

/-!
Shallow embedding of the game engine in `bot.py` (single-player RPG bot):
the damage resolver, the player aggregate (fatigue, effects, stats), the
battle snapshot and turn pipeline (`handle_battle`), phase transitions,
victory and defeat resolution (`win_battle`, `lose_battle`), the quest
completion pass, and reward application.

Modelling conventions:
* Python floats are modelled as rationals (`ℚ`); the literals `0.8`, `1.2`,
  `0.3`, `0.9`, `1.1` become `4/5`, `6/5`, `3/10`, `9/10`, `11/10`.
* Python `int(x)` (truncation toward zero) is `pyInt`.
* `random.randint` / `random.uniform` are modelled by an `Rng` structure
  carrying arbitrary draw functions constrained to the requested interval.
* Content tables (`CLASSES`, `ABILITIES`, `ITEMS`, `QUESTS`, `LOCATIONS`)
  are read-only lookup parameters, matching their use in the source.
* The chat transport (message sending, keyboards, images) is out of scope
  per the architecture: narration strings are dropped, and state changes
  are modelled exactly as the handlers perform them.
-/

/-- Python `int()` applied to a rational: truncation toward zero. -/
def pyInt (q : ℚ) : ℤ :=
  if 0 ≤ q then ⌊q⌋ else -⌊-q⌋

theorem pyInt_of_nonneg {q : ℚ} (h : 0 ≤ q) : pyInt q = ⌊q⌋ := by
  simp [pyInt, h]

/-- Model of Python's `random` module: `randint lo hi` draws an integer in
`[lo, hi]` (both ends included) and `uniform lo hi` draws a rational in
`[lo, hi]`.  The draw functions are arbitrary subject to those bounds. -/
structure Rng where
  randint : ℤ → ℤ → ℤ
  uniform : ℚ → ℚ → ℚ
  randint_spec : ∀ lo hi : ℤ, lo ≤ hi → lo ≤ randint lo hi ∧ randint lo hi ≤ hi
  uniform_spec : ∀ lo hi : ℚ, lo ≤ hi → lo ≤ uniform lo hi ∧ uniform lo hi ≤ hi

/-- The degenerate generator that always returns the low end of the range. -/
def loRng : Rng where
  randint := fun lo _ => lo
  uniform := fun lo _ => lo
  randint_spec := fun lo hi h => ⟨le_refl lo, h⟩
  uniform_spec := fun lo hi h => ⟨le_refl lo, h⟩

/-- `calculate_single_layer_damage` (bot.py lines 247-262): one damage
instance from an attack value, a multiplier, a damage type and the enemy's
resistance table.  The resistance factor is floored at 0, the variance draw
is `randint(int(final*0.8), int(final*1.2))`, and the result is clamped to
a minimum of 1. -/
def calculate_single_layer_damage (rng : Rng) (base_attack : ℤ) (multiplier : ℚ)
    (dmg_type : String) (resistances : String → ℚ) : ℤ :=
  let raw : ℚ := (base_attack : ℚ) * multiplier
  let res_val : ℚ := resistances dmg_type
  let res_factor : ℚ := max 0 (1 - res_val)
  let final_val : ℚ := raw * res_factor
  let min_dmg : ℤ := pyInt (final_val * (4/5))
  let max_dmg : ℤ := pyInt (final_val * (6/5))
  max 1 (rng.randint min_dmg max_dmg)

/-- C2: for resistance `r ∈ [0,1]`, attack `a > 0`, multiplier `m > 0`, the
resolver's output lies in `[max 1 ⌊a·m·(1-r)·0.8⌋, max 1 ⌈a·m·(1-r)·1.2⌉]`;
the resistance factor is floored at 0 and the result clamped to minimum 1. -/
theorem c2_resolver_bounds (rng : Rng) (a : ℤ) (m r : ℚ) (t : String)
    (res : String → ℚ) (hres : res t = r)
    (hr0 : 0 ≤ r) (hr1 : r ≤ 1) (ha : 0 < a) (hm : 0 < m) :
    max 1 ⌊(a : ℚ) * m * (1 - r) * (4/5)⌋ ≤ calculate_single_layer_damage rng a m t res ∧
    calculate_single_layer_damage rng a m t res ≤ max 1 ⌈(a : ℚ) * m * (1 - r) * (6/5)⌉ := by
  have hfac : max (0 : ℚ) (1 - r) = 1 - r := max_eq_right (by linarith)
  have hfin : (0 : ℚ) ≤ (a : ℚ) * m * (1 - r) := by
    have ha' : (0 : ℚ) ≤ (a : ℚ) := by exact_mod_cast ha.le
    have : (0 : ℚ) ≤ 1 - r := by linarith
    positivity
  have hlohi : ((a : ℚ) * m * (1 - r)) * (4/5) ≤ ((a : ℚ) * m * (1 - r)) * (6/5) := by
    nlinarith
  unfold calculate_single_layer_damage
  simp only [hres, hfac]
  rw [pyInt_of_nonneg (by positivity), pyInt_of_nonneg (by positivity)]
  have hmono : ⌊((a : ℚ) * m * (1 - r)) * (4/5)⌋ ≤ ⌊((a : ℚ) * m * (1 - r)) * (6/5)⌋ :=
    Int.floor_le_floor hlohi
  obtain ⟨hlo, hhi⟩ := rng.randint_spec _ _ hmono
  constructor
  · exact max_le_max (le_refl 1) hlo
  · refine le_trans (max_le_max (le_refl 1) (le_trans hhi ?_)) (le_refl _)
    exact le_trans (Int.floor_le_ceil _) (by exact le_refl _)

/-- Witness for C2 at `a = 10`, `m = 1`, `r = 0`: the resolver output lies
between `max 1 ⌊8⌋ = 8` and `max 1 ⌈12⌉ = 12`. -/
theorem c2_resolver_bounds_witness :
    max 1 ⌊(((10 : ℤ) : ℚ)) * 1 * (1 - 0) * (4/5)⌋ ≤
      calculate_single_layer_damage loRng 10 1 "physical" (fun _ => 0) ∧
    calculate_single_layer_damage loRng 10 1 "physical" (fun _ => 0) ≤
      max 1 ⌈(((10 : ℤ) : ℚ)) * 1 * (1 - 0) * (6/5)⌉ :=
  c2_resolver_bounds loRng 10 1 0 "physical" (fun _ => 0) rfl
    (by norm_num) (by norm_num) (by norm_num) (by norm_num)

/-- A temporary effect on the player (`Player.active_effects` entries):
name, stat deltas, remaining duration in battles. -/
structure Effect where
  name : String
  stats : List (String × ℤ)
  duration : ℤ
deriving DecidableEq, Repr

/-- An active damage-over-time entry on the enemy (`battle['active_dots']`
entries): damage type, DoT name, per-tick damage, remaining ticks. -/
structure Dot where
  dtype : String
  name : String
  damage : ℤ
  duration : ℤ
deriving DecidableEq, Repr

/-- A timed buff carried by a consumable (`item['buffs']`): the stat deltas
(the dict minus its `duration` key) and the duration, defaulting to 1. -/
structure Buffs where
  stats : List (String × ℤ)
  duration : ℤ
deriving DecidableEq, Repr

/-- An `ITEMS` table entry.  `stats` is the optional stat dict (an absent
dict is the empty list); `buffs` is `none` when absent or empty (both are
falsy in the source). -/
structure Item where
  name : String
  itype : String
  price : ℤ
  stats : List (String × ℤ)
  buffs : Option Buffs
deriving DecidableEq, Repr

/-- Rewards payload (`quest['rewards']`, battle rewards, scene rewards):
each key optional, applied only when present. -/
structure Rewards where
  experience : Option ℕ
  gold : Option ℤ
  items : Option (List String)
deriving DecidableEq, Repr

/-- A `QUESTS` table entry: objectives map enemy ids to required kill
counts (an absent `objectives` dict is the empty list). -/
structure Quest where
  name : String
  objectives : List (String × ℕ)
  rewards : Rewards
deriving DecidableEq, Repr

/-- A `CLASSES` table entry: base health and the other base stats. -/
structure ClassData where
  base_health : ℤ
  base_attack : ℤ
  base_defense : ℤ
deriving DecidableEq, Repr

/-- A `LOCATIONS` table entry; only the `is_city` flag matters to the
state transitions modelled here. -/
structure LocData where
  is_city : Bool
deriving DecidableEq, Repr

/-- One entry of an enemy's `phases` list: replacement health, attack,
name and (optionally) resistances for the next phase. -/
structure PhaseData where
  health : ℤ
  attack : ℤ
  pname : String
  resistances : Option (String → ℚ)

instance : Inhabited PhaseData := ⟨⟨0, 0, "", none⟩⟩

/-- A single damage layer of an ability (`effect['layers']` entries). -/
structure Layer where
  mult : ℚ
  ltype : String

/-- The DoT declaration of an ability (`effect['dot']`). -/
structure DotConf where
  dtype : String
  name : String
  mult : ℚ
  duration : ℤ

/-- An `ABILITIES` table entry; every field is optional in the content. -/
structure AbilityEffect where
  layers : Option (List Layer)
  dmg_mult : Option ℚ
  dot : Option DotConf
  heal : Option ℚ
  heal_flat : Option ℤ
  defense_buff : Option ℤ
  max_uses : Option ℕ

/-- The read-only content tables the engine consumes. -/
structure Content where
  classes : String → Option ClassData
  abilities : String → Option AbilityEffect
  items : String → Option Item
  quests : String → Option Quest
  locations : String → Option LocData

/-- Lookup in a stat dict, `none` when the key is absent. -/
def alist_get (l : List (String × ℤ)) (k : String) : Option ℤ :=
  (l.find? (fun kv => kv.1 = k)).map (·.2)

/-- `dict.get(k, 0)` on a stat dict. -/
def stat_of (l : List (String × ℤ)) (k : String) : ℤ :=
  (alist_get l k).getD 0

/-- Functional update of a stat dict modelled as a function. -/
def statSet (f : String → ℤ) (k : String) (v : ℤ) : String → ℤ :=
  fun s => if s = k then v else f s

/-- The persistent per-user progression state (`class Player`). Fields not
needed by any claim (images, visited analytics kept, shop context dropped)
follow the constructor at bot.py lines 125-149. -/
structure PlayerState where
  class_name : Option String
  base_stats : String → ℤ
  inventory : List String
  equipped_artifacts : List String
  artifact_slots : ℕ
  gold : ℤ
  active_effects : List Effect
  active_quests : List String
  completed_quests : List String
  location : String
  level : ℕ
  experience : ℕ
  kill_count : String → ℕ
  visited_locations : List String
  defeated_bosses : List String
  current_city : String
  fatigue : ℚ
  last_fatigue_update : ℚ
  unlocked_cities : List String
  last_location : String

/-- `Player.update_fatigue` (bot.py lines 151-157): regenerate
`passed * 100/3600` fatigue, capped at 100, only when the gain is
positive. -/
def update_fatigue (p : PlayerState) (now : ℚ) : PlayerState :=
  let passed := now - p.last_fatigue_update
  let gain := passed * (100 / 3600)
  if 0 < gain then
    { p with fatigue := min 100 (p.fatigue + gain), last_fatigue_update := now }
  else p

/-- `Player.spend_fatigue` (bot.py lines 163-166): update first, then
subtract, floored at 0. -/
def spend_fatigue (p : PlayerState) (amount : ℚ) (now : ℚ) : PlayerState :=
  let p := update_fatigue p now
  { p with fatigue := max 0 (p.fatigue - amount), last_fatigue_update := now }

/-- `Player.get_total_stats` (bot.py lines 168-179): base stats, with the
`gold` key overridden by the gold counter, plus equipped-artifact stat
bonuses plus active-effect stat bonuses. -/
def get_total_stats (ct : Content) (p : PlayerState) (k : String) : ℤ :=
  (if k = "gold" then p.gold else p.base_stats k)
    + (p.equipped_artifacts.map (fun iid =>
        match ct.items iid with
        | some it => stat_of it.stats k
        | none => 0)).sum
    + (p.active_effects.map (fun e => stat_of e.stats k)).sum

/-- `Player.add_effect` (bot.py lines 181-182). -/
def add_effect (p : PlayerState) (name : String) (stats : List (String × ℤ))
    (duration : ℤ) : PlayerState :=
  { p with active_effects := p.active_effects ++ [⟨name, stats, duration⟩] }

/-- `Player.tick_effects` (bot.py lines 184-193): decrement every duration,
drop the entries that reached 0 or below. -/
def tick_effects_list (l : List Effect) : List Effect :=
  (l.map (fun e => { e with duration := e.duration - 1 })).filter
    (fun e => 0 < e.duration)

/-- The player-side of `tick_effects` (the returned "anything expired"
boolean only drives narration and is dropped). -/
def tick_effects (p : PlayerState) : PlayerState :=
  { p with active_effects := tick_effects_list p.active_effects }

/-- `Player.get_max_health` (bot.py lines 195-198): class base health plus
`(level-1)*10`, defaulting to 100 when the class is unset or unknown. -/
def get_max_health (ct : Content) (p : PlayerState) : ℤ :=
  match p.class_name.bind ct.classes with
  | none => 100
  | some c => c.base_health + ((p.level - 1) * 10 : ℕ)

/-- The ephemeral battle snapshot (`context.user_data['battle']`, bot.py
lines 592-599), with the enemy working copy flattened in (the fields the
phase transition may overwrite, plus the immutable experience/boss data
read at victory). -/
structure Battle where
  e_hp : ℤ
  e_attack : ℤ
  e_name : String
  e_resistances : String → ℚ
  e_experience : ℕ
  e_is_boss : Bool
  e_phases : List PhaseData
  e_id : String
  phase : ℕ
  p_hp : ℤ
  skill_uses : String → ℕ
  active_dots : List Dot

/-- `apply_rewards` (bot.py lines 571-583): additively apply whichever of
experience, gold and items are present. -/
def apply_rewards (p : PlayerState) (r : Rewards) : PlayerState :=
  { p with
    experience := p.experience + r.experience.getD 0
    gold := p.gold + r.gold.getD 0
    inventory := p.inventory ++ r.items.getD [] }

/-- One step of the post-victory quest scan (bot.py lines 874-880): an
active quest whose objectives are all met by `kill_count` is removed from
the active list, appended to the completed list, and its rewards applied. -/
def quest_step (ct : Content) (p : PlayerState) (qid : String) : PlayerState :=
  match ct.quests qid with
  | none => p
  | some q =>
    if q.objectives.all (fun mc => mc.2 ≤ p.kill_count mc.1) then
      apply_rewards
        { p with
          active_quests := p.active_quests.erase qid
          completed_quests := p.completed_quests ++ [qid] } q.rewards
    else p

/-- The full quest scan: iterate `quest_step` over a snapshot of the active
quest list (`for q_id in player.active_quests[:]`). -/
def quest_pass (ct : Content) (p : PlayerState) : PlayerState :=
  p.active_quests.foldl (quest_step ct) p

/-- Whether a quest's objectives are all met by a kill-count table
(`all(kill_count.get(mob,0) >= count ...)`). -/
def quest_met (ct : Content) (kc : String → ℕ) (qid : String) : Bool :=
  match ct.quests qid with
  | none => false
  | some q => q.objectives.all (fun mc => mc.2 ≤ kc mc.1)

/-- The level-up check at the end of `win_battle` (bot.py lines 882-887):
a single threshold crossing raises the level by one, subtracts the
threshold, and grants +2 attack and +10 base health. -/
def level_up_check (p : PlayerState) : PlayerState :=
  if p.level * 100 ≤ p.experience then
    { p with
      experience := p.experience - p.level * 100
      level := p.level + 1
      base_stats :=
        statSet (statSet p.base_stats "attack" (p.base_stats "attack" + 2))
          "health" (p.base_stats "health" + 10) }
  else p

/-- `win_battle` (bot.py lines 848-911) restricted to its effect on the
player aggregate: 30% max-health regeneration (clamped), effect tick, boss
bonuses, kill recording, the quest scan, the level-up check, and finally
the battle rewards (experience plus 80% gold).  The closing navigation
(resuming story/event/exploration) does not mutate the player. -/
def win_battle (ct : Content) (p : PlayerState) (e_experience : ℕ)
    (e_is_boss : Bool) (e_id : String) : PlayerState :=
  let max_hp := get_max_health ct p
  let current_hp := p.base_stats "health"
  let heal_amt := pyInt ((max_hp : ℚ) * (3/10))
  let p := { p with base_stats := statSet p.base_stats "health" (min max_hp (current_hp + heal_amt)) }
  let p := tick_effects p
  let base_gold : ℤ := pyInt ((e_experience : ℚ) * (4/5))
  let p := if e_is_boss then
      { p with
        defeated_bosses :=
          if e_id ∈ p.defeated_bosses then p.defeated_bosses else p.defeated_bosses ++ [e_id]
        artifact_slots := p.artifact_slots + 1 }
    else p
  let gold_total : ℤ := base_gold + (if e_is_boss then 100 else 0)
  let p := { p with kill_count := fun k => if k = e_id then p.kill_count e_id + 1 else p.kill_count k }
  let p := quest_pass ct p
  let p := level_up_check p
  apply_rewards p { experience := some e_experience, gold := some gold_total, items := none }

/-- The health value `lose_battle` resets to (bot.py line 931):
`CLASSES[class]['base_stats']['health'] + (level-1)*10`.  The source
indexes the class table directly (a missing class would raise), so the
`none` branches are unreachable for a player who can be in battle. -/
def defeat_health (ct : Content) (p : PlayerState) : ℤ :=
  match p.class_name.bind ct.classes with
  | some c => c.base_health + ((p.level - 1) * 10 : ℕ)
  | none => 0

/-- The state effects of `show_location` (bot.py lines 367-381): resolve
the target id (falling back to the current city and then the starting
village), set location/last-location, record the visit, and update the
current city when the location is flagged as a city. -/
def show_location_update (ct : Content) (p : PlayerState) (loc_id : String) : PlayerState :=
  let lid := if (ct.locations loc_id).isSome then loc_id
    else if (ct.locations p.current_city).isSome then p.current_city
    else "village_square"
  let is_city := match ct.locations lid with
    | some l => l.is_city
    | none => false
  { p with
    location := lid
    last_location := lid
    visited_locations :=
      if lid ∈ p.visited_locations then p.visited_locations else p.visited_locations ++ [lid]
    current_city := if is_city then lid else p.current_city }

/-- `lose_battle` (bot.py lines 914-954): record the pre-battle location
(falling back to the starting village), clear all temporary effects, reset
health to the class/level maximum, move the player to the recovery camp;
after the fixed 15-second recovery delay, `show_location` returns the
player to the recorded pre-battle location.  The first component is the
state during recovery, the second the state once the delay has elapsed. -/
def lose_battle (ct : Content) (p : PlayerState) : PlayerState × PlayerState :=
  let dest := if (ct.locations p.last_location).isSome then p.last_location else "village_square"
  let p1 := { p with
    active_effects := []
    base_stats := statSet p.base_stats "health" (defeat_health ct p)
    location := "player_camp" }
  (p1, show_location_update ct p1 dest)

/-- Refresh the first DoT entry whose name matches the cast DoT
(`existing['duration'] = ...; existing['damage'] = max(1, dot_dmg)`,
bot.py lines 760-762); entries are matched by name. -/
def refresh_dot : List Dot → DotConf → ℤ → List Dot
  | [], _, _ => []
  | d :: ds, conf, dmg =>
    if d.name = conf.name then
      { d with duration := conf.duration, damage := max 1 dmg } :: ds
    else d :: refresh_dot ds conf dmg

/-- DoT application on ability cast (bot.py lines 757-771): refresh the
existing same-named entry instead of stacking, otherwise append a new
entry; the stored per-tick damage is clamped to a minimum of 1. -/
def apply_dot (dots : List Dot) (conf : DotConf) (dmg : ℤ) : List Dot :=
  if dots.any (fun d => d.name = conf.name) then refresh_dot dots conf dmg
  else dots ++ [⟨conf.dtype, conf.name, max 1 dmg, conf.duration⟩]

/-- The total ability damage (bot.py lines 731-742): the sum over the
declared layers, the legacy single flat-multiplier damage, or 0 when
neither field is present. -/
def ability_total_dmg (rng : Rng) (atk : ℤ) (b : Battle)
    (eff : AbilityEffect) : ℤ :=
  match eff.layers with
  | some ls => (ls.map (fun l =>
      calculate_single_layer_damage rng atk l.mult l.ltype b.e_resistances)).sum
  | none =>
    match eff.dmg_mult with
    | some m2 => calculate_single_layer_damage rng atk m2 "physical" b.e_resistances
    | none => 0

/-- The body of a successful ability cast (bot.py lines 729-785), after the
use-limit check has passed: bump the per-battle use counter, deal the
summed layer damage (or the legacy flat-multiplier damage), apply the DoT
snapshot, the damage-proportional and flat heals (both unclamped), and the
one-battle defense buff. -/
def apply_ability (ct : Content) (rng : Rng) (atk : ℤ) (p : PlayerState)
    (b : Battle) (n : String) (eff : AbilityEffect) : PlayerState × Battle :=
  let uses := b.skill_uses n
  let b := { b with skill_uses := fun k => if k = n then uses + 1 else b.skill_uses k }
  let enemy_res := b.e_resistances
  let total_dmg : ℤ := ability_total_dmg rng atk b eff
  let b := { b with e_hp := b.e_hp - total_dmg }
  let b :=
    match eff.dot with
    | some conf =>
      let dot_raw : ℚ := (atk : ℚ) * conf.mult
      let dot_dmg := pyInt (dot_raw * max 0 (1 - enemy_res conf.dtype))
      { b with active_dots := apply_dot b.active_dots conf dot_dmg }
    | none => b
  let b :=
    match eff.heal with
    | some hr => { b with p_hp := b.p_hp + pyInt ((total_dmg : ℚ) * hr) }
    | none => b
  let b :=
    match eff.heal_flat with
    | some hf => { b with p_hp := b.p_hp + hf }
    | none => b
  let p :=
    match eff.defense_buff with
    | some d => add_effect p n [("defense", d)] 1
    | none => p
  (p, b)

/-- A player battle input, after the transport layer's label matching:
the basic attack, an ability button (carrying the display name used for
the `ABILITIES` lookup), a chosen potion (carrying the resolved item id),
or any other unmatched text. -/
inductive BattleAction where
  | attack : BattleAction
  | ability : String → BattleAction
  | potion : String → BattleAction
  | other : BattleAction

/-- The player-turn phase of `handle_battle` (bot.py lines 636-785).
`none` means the handler returned early with no state change (ability use
limit reached, potion missing/refused): the turn is not consumed.  On
`some (p, b, checkKill)` the handler falls through to the DoT and enemy
phases; `checkKill` records whether the player-action block ran (the
`e_hp <= 0` short-circuit at line 789 sits inside that block, so a potion
turn skips it). -/
def player_phase (ct : Content) (rng : Rng) (atk : ℤ) (p : PlayerState)
    (b : Battle) (act : BattleAction) : Option (PlayerState × Battle × Bool) :=
  match act with
  | .attack =>
    let dmg := calculate_single_layer_damage rng atk 1 "physical" b.e_resistances
    some (p, { b with e_hp := b.e_hp - dmg }, true)
  | .ability n =>
    match ct.abilities n with
    | none => some (p, b, true)
    | some eff =>
      let uses := b.skill_uses n
      let limit := eff.max_uses.getD 99
      if limit ≤ uses then none
      else
        let pb := apply_ability ct rng atk p b n eff
        some (pb.1, pb.2, true)
  | .potion iid =>
    match ct.items iid with
    | none => none
    | some item =>
      if iid ∈ p.inventory then
        let heal := stat_of item.stats "health"
        let max_hp := get_max_health ct p
        if 0 < heal ∧ item.buffs = none ∧ max_hp ≤ b.p_hp then none
        else
          let p := { p with inventory := p.inventory.erase iid }
          let hb : ℤ × PlayerState :=
            if 0 < heal then
              let nh := min max_hp (b.p_hp + heal)
              (nh, { p with base_stats := statSet p.base_stats "health" nh })
            else (b.p_hp, p)
          let p := hb.2
          let p :=
            match item.buffs with
            | some bf => add_effect p item.name bf.stats bf.duration
            | none => p
          some (p, { b with p_hp := hb.1 }, false)
      else none
  | .other => some (p, b, true)

/-- The DoT phase (bot.py lines 793-803): every active DoT deals its stored
damage to the enemy, durations tick down, and expired entries are
dropped. -/
def dot_phase (b : Battle) : Battle :=
  { b with
    e_hp := b.e_hp - (b.active_dots.map (·.damage)).sum
    active_dots :=
      (b.active_dots.map (fun d => { d with duration := d.duration - 1 })).filter
        (fun d => 0 < d.duration) }

/-- The outcome of one processed battle input. -/
inductive TurnOutcome where
  /-- Early rejection: the handler returned before the turn pipeline; the
  carried player and battle are the untouched inputs. -/
  | refused : PlayerState → Battle → TurnOutcome
  /-- The enemy died with phases remaining: the battle continues against
  the next phase. -/
  | phaseChange : PlayerState → Battle → TurnOutcome
  /-- Victory: the battle ends and `win_battle` resolves the player. -/
  | victory : PlayerState → TurnOutcome
  /-- Defeat: first the state during camp recovery, then the state after
  the recovery delay has elapsed. -/
  | defeated : PlayerState → PlayerState → TurnOutcome
  /-- The enemy turn was survived: battle continues next turn. -/
  | continued : PlayerState → Battle → TurnOutcome

/-- `handle_enemy_death` (bot.py lines 825-846): if the enemy declares
phases and one remains, load the next phase (health, attack, name and
optionally resistances) and continue; otherwise resolve the victory. -/
def handle_enemy_death (ct : Content) (p : PlayerState) (b : Battle) : TurnOutcome :=
  if 0 < b.e_phases.length ∧ b.phase ≤ b.e_phases.length then
    let pd := b.e_phases.getD (b.phase - 1) default
    .phaseChange p
      { b with
        phase := b.phase + 1
        e_hp := pd.health
        e_attack := pd.attack
        e_name := pd.pname
        e_resistances := pd.resistances.getD b.e_resistances }
  else .victory (win_battle ct p b.e_experience b.e_is_boss b.e_id)

/-- The shared tail of `handle_battle` after the player phase (bot.py
lines 789-823): the kill short-circuit, the DoT phase with its own kill
check (guarded by `if dot_log:`), and the enemy turn.  `dfn` is the
defense from the stats snapshot taken at handler entry.  A survived enemy
turn writes the battle health mirror back into the player aggregate. -/
def resolve_turn (ct : Content) (rng : Rng) (dfn : ℤ) (p : PlayerState)
    (b : Battle) (checkKill : Bool) : TurnOutcome :=
  if checkKill ∧ b.e_hp ≤ 0 then handle_enemy_death ct p b
  else
    let had_dots := b.active_dots ≠ []
    let b := dot_phase b
    if had_dots ∧ b.e_hp ≤ 0 then handle_enemy_death ct p b
    else
      let e_base := max 1 (b.e_attack - dfn)
      let e_dmg := pyInt ((e_base : ℚ) * rng.uniform (9/10) (11/10))
      let php := b.p_hp - e_dmg
      let b := { b with p_hp := php }
      if php ≤ 0 then
        let pd := lose_battle ct p
        .defeated pd.1 pd.2
      else
        .continued { p with base_stats := statSet p.base_stats "health" php } b

/-- One full `handle_battle` input (bot.py lines 630-823) for the actions
the claims concern (flee and menu navigation are routing-only).  The stats
snapshot is taken once at entry, as in the source. -/
def handle_battle_turn (ct : Content) (rng : Rng) (p : PlayerState)
    (b : Battle) (act : BattleAction) : TurnOutcome :=
  let atk := get_total_stats ct p "attack"
  let dfn := get_total_stats ct p "defense"
  match player_phase ct rng atk p b act with
  | none => .refused p b
  | some (p1, b1, ck) => resolve_turn ct rng dfn p1 b1 ck

/-- Using a consumable from the inventory menu (bot.py lines 990-1001):
remove the item, apply a clamped heal when the stat dict declares one, and
add the timed buff when present. -/
def use_consumable_item (ct : Content) (p : PlayerState) (iid : String)
    (item : Item) : PlayerState :=
  let p := { p with inventory := p.inventory.erase iid }
  let p :=
    match alist_get item.stats "health" with
    | some heal =>
      let nh := min (get_max_health ct p) (p.base_stats "health" + heal)
      { p with base_stats := statSet p.base_stats "health" nh }
    | none => p
  match item.buffs with
  | some bf => add_effect p item.name bf.stats bf.duration
  | none => p

/-- The surviving player of a `continued` outcome. -/
def TurnOutcome.contPlayer : TurnOutcome → Option PlayerState
  | .continued p _ => some p
  | _ => none

/-- The battle snapshot of a `continued` outcome. -/
def TurnOutcome.contBattle : TurnOutcome → Option Battle
  | .continued _ b => some b
  | _ => none

/-- The resolved player of a `victory` outcome. -/
def TurnOutcome.victoryPlayer : TurnOutcome → Option PlayerState
  | .victory p => some p
  | _ => none

/-- The recovering player of a `defeated` outcome (before the delay). -/
def TurnOutcome.campPlayer : TurnOutcome → Option PlayerState
  | .defeated pc _ => some pc
  | _ => none

/-- The player of a `defeated` outcome after the recovery delay. -/
def TurnOutcome.resumePlayer : TurnOutcome → Option PlayerState
  | .defeated _ pa => some pa
  | _ => none

/-- Whether the outcome is a defeat. -/
def TurnOutcome.isDefeat : TurnOutcome → Bool
  | .defeated _ _ => true
  | _ => false

/-- An operation on the fatigue resource: a lazy recomputation at a given
wall-clock instant, or a spend of a given amount at a given instant. -/
inductive FatigueOp where
  | upd : ℚ → FatigueOp
  | spendOp : ℚ → ℚ → FatigueOp

/-- Run one fatigue operation. -/
def fatigue_step (p : PlayerState) : FatigueOp → PlayerState
  | .upd now => update_fatigue p now
  | .spendOp a now => spend_fatigue p a now

/-- Run a sequence of fatigue operations. -/
def run_fatigue (p : PlayerState) (ops : List FatigueOp) : PlayerState :=
  ops.foldl fatigue_step p

/-- A fatigue operation never spends a negative amount (the source only
spends non-negative event costs). -/
def FatigueOp.amountOk : FatigueOp → Prop
  | .upd _ => True
  | .spendOp a _ => 0 ≤ a

theorem update_fatigue_mem (p : PlayerState) (now : ℚ)
    (h0 : 0 ≤ p.fatigue) (h1 : p.fatigue ≤ 100) :
    0 ≤ (update_fatigue p now).fatigue ∧ (update_fatigue p now).fatigue ≤ 100 := by
  by_cases hgain : 0 < (now - p.last_fatigue_update) * (100 / 3600)
  · simp only [update_fatigue, if_pos hgain]
    constructor
    · exact le_min (by norm_num) (by linarith)
    · exact min_le_left _ _
  · simp only [update_fatigue, if_neg hgain]
    exact ⟨h0, h1⟩

theorem spend_fatigue_mem (p : PlayerState) (a now : ℚ) (ha : 0 ≤ a)
    (h0 : 0 ≤ p.fatigue) (h1 : p.fatigue ≤ 100) :
    0 ≤ (spend_fatigue p a now).fatigue ∧ (spend_fatigue p a now).fatigue ≤ 100 := by
  obtain ⟨u0, u1⟩ := update_fatigue_mem p now h0 h1
  simp only [spend_fatigue]
  constructor
  · exact le_max_left _ _
  · exact max_le (by norm_num) (by linarith)

theorem run_fatigue_mem (ops : List FatigueOp) (p : PlayerState)
    (hops : ∀ op ∈ ops, op.amountOk)
    (h0 : 0 ≤ p.fatigue) (h1 : p.fatigue ≤ 100) :
    0 ≤ (run_fatigue p ops).fatigue ∧ (run_fatigue p ops).fatigue ≤ 100 := by
  induction ops generalizing p with
  | nil => exact ⟨h0, h1⟩
  | cons op rest ih =>
    have hop := hops op (List.mem_cons_self op rest)
    have hrest : ∀ o ∈ rest, o.amountOk := fun o ho => hops o (List.mem_cons_of_mem op ho)
    cases op with
    | upd now =>
      obtain ⟨s0, s1⟩ := update_fatigue_mem p now h0 h1
      exact ih (update_fatigue p now) hrest s0 s1
    | spendOp a now =>
      obtain ⟨s0, s1⟩ := spend_fatigue_mem p a now hop h0 h1
      exact ih (spend_fatigue p a now) hrest s0 s1

/-- C9: fatigue regenerates at 100/3600 per second, capped at 100.
Starting at fatigue 100 with last update at `t0`: updating after 3600
seconds yields exactly 100 (capped); spending 40 at `t0` and updating
1800 seconds later yields `min 100 (60 + 50) = 100`; and any sequence of
update/spend operations with non-negative spend amounts keeps fatigue in
`[0, 100]` (spending floors at 0). -/
theorem c9_fatigue_regen (p : PlayerState) (t0 : ℚ)
    (h1 : p.fatigue = 100) (h2 : p.last_fatigue_update = t0) :
    (update_fatigue p (t0 + 3600)).fatigue = 100 ∧
    (update_fatigue (spend_fatigue p 40 t0) (t0 + 1800)).fatigue = 100 ∧
    ∀ ops : List FatigueOp, (∀ op ∈ ops, op.amountOk) →
      0 ≤ (run_fatigue p ops).fatigue ∧ (run_fatigue p ops).fatigue ≤ 100 := by
  refine ⟨?_, ?_, ?_⟩
  · have hg : (t0 + 3600 - t0) * (100 / 3600) = (100 : ℚ) := by ring
    simp only [update_fatigue, h1, h2, hg]
    rw [if_pos (show (0:ℚ) < 100 by norm_num)]
    simp only
    rw [min_eq_left (by norm_num)]
  · have hg0 : (t0 - t0) * (100 / 3600) = (0 : ℚ) := by ring
    have hs : spend_fatigue p 40 t0 =
        { p with fatigue := max 0 (p.fatigue - 40), last_fatigue_update := t0 } := by
      simp only [spend_fatigue, update_fatigue, h2, hg0]
      rw [if_neg (by norm_num)]
    rw [hs]
    have hg : (t0 + 1800 - t0) * (100 / 3600) = (50 : ℚ) := by ring
    simp only [update_fatigue, h1, hg]
    rw [if_pos (show (0:ℚ) < 50 by norm_num)]
    simp only
    norm_num
  · intro ops hops
    exact run_fatigue_mem ops p hops (by rw [h1]; norm_num) (by rw [h1])

/-- A concrete player record used to instantiate witnesses (class id
`warrior`, level 1, at the starting village, fatigue 100 at time 0). -/
def samplePlayer : PlayerState where
  class_name := some "warrior"
  base_stats := fun s => if s = "health" then 100 else if s = "attack" then 10 else if s = "defense" then 0 else 0
  inventory := []
  equipped_artifacts := []
  artifact_slots := 1
  gold := 50
  active_effects := []
  active_quests := []
  completed_quests := []
  location := "forest"
  level := 1
  experience := 0
  kill_count := fun _ => 0
  visited_locations := []
  defeated_bosses := []
  current_city := "village_square"
  fatigue := 100
  last_fatigue_update := 0
  unlocked_cities := ["village_square"]
  last_location := "forest"

/-- Witness for C9 at the sample player and `t0 = 0`. -/
theorem c9_fatigue_regen_witness :
    (update_fatigue samplePlayer (0 + 3600)).fatigue = 100 ∧
    (update_fatigue (spend_fatigue samplePlayer 40 0) (0 + 1800)).fatigue = 100 ∧
    ∀ ops : List FatigueOp, (∀ op ∈ ops, op.amountOk) →
      0 ≤ (run_fatigue samplePlayer ops).fatigue ∧
        (run_fatigue samplePlayer ops).fatigue ≤ 100 :=
  c9_fatigue_regen samplePlayer 0 rfl rfl

/-- Concrete content tables used to instantiate witnesses. -/
def sampleContent : Content where
  classes := fun c => if c = "warrior" then some ⟨100, 10, 0⟩ else none
  abilities := fun a =>
    if a = "Venom Strike" then
      some ⟨none, none, some ⟨"poison", "Poison", 1, 3⟩, none, none, none, none⟩
    else if a = "Healing Strike" then
      some ⟨none, none, none, none, some 50, none, none⟩
    else if a = "Fire Blast" then
      some ⟨some [⟨2, "fire"⟩], none, none, none, none, none, some 2⟩
    else if a = "Reaper Drain" then
      some ⟨some [⟨2, "physical"⟩], none, none, some (1/2), some 7, none, none⟩
    else none
  items := fun i =>
    if i = "health_potion" then
      some ⟨"Малое зелье", "consumable", 20, [("health", 30)], none⟩
    else none
  quests := fun q =>
    if q = "wolf_hunt" then
      some ⟨"Волчья охота", [("wolf", 3)], ⟨some 10, some 5, none⟩⟩
    else none
  locations := fun l =>
    if l = "village_square" then some ⟨true⟩
    else if l = "forest" then some ⟨false⟩
    else if l = "player_camp" then some ⟨false⟩
    else none

/-- A concrete battle snapshot used to instantiate witnesses: a plain
wolf with 50 health and 10 attack, one active poison DoT, full player
mirror health. -/
def sampleBattle : Battle where
  e_hp := 50
  e_attack := 10
  e_name := "Волк"
  e_resistances := fun _ => 0
  e_experience := 20
  e_is_boss := false
  e_phases := []
  e_id := "wolf"
  phase := 1
  p_hp := 100
  skill_uses := fun _ => 0
  active_dots := [⟨"poison", "Poison", 2, 1⟩]

theorem refresh_dot_length (dots : List Dot) (conf : DotConf) (dmg : ℤ) :
    (refresh_dot dots conf dmg).length = dots.length := by
  induction dots with
  | nil => rfl
  | cons d ds ih =>
    by_cases h : d.name = conf.name
    · simp [refresh_dot, h]
    · simp [refresh_dot, h, ih]

theorem refresh_dot_find (dots : List Dot) (conf : DotConf) (dmg : ℤ) :
    (refresh_dot dots conf dmg).find? (fun d => d.name = conf.name) =
      (dots.find? (fun d => d.name = conf.name)).map
        (fun d => { d with duration := conf.duration, damage := max 1 dmg }) := by
  induction dots with
  | nil => rfl
  | cons d ds ih =>
    by_cases h : d.name = conf.name
    · simp [refresh_dot, h, List.find?]
    · simp [refresh_dot, h, List.find?, ih]

theorem apply_dot_of_active (dots : List Dot) (conf : DotConf) (dmg : ℤ)
    (hmem : conf.name ∈ dots.map (·.name)) :
    (apply_dot dots conf dmg).length = dots.length ∧
    (apply_dot dots conf dmg).find? (fun d => d.name = conf.name) =
      (dots.find? (fun d => d.name = conf.name)).map
        (fun d => { d with duration := conf.duration, damage := max 1 dmg }) := by
  have hany : dots.any (fun d => d.name = conf.name) = true := by
    rw [List.any_eq_true]
    obtain ⟨d, hd, he⟩ := List.mem_map.mp hmem
    exact ⟨d, hd, by simp [he]⟩
  simp only [apply_dot, hany, if_true]
  exact ⟨refresh_dot_length dots conf dmg, refresh_dot_find dots conf dmg⟩

theorem apply_ability_dots (ct : Content) (rng : Rng) (atk : ℤ)
    (p : PlayerState) (b : Battle) (n : String) (eff : AbilityEffect)
    (conf : DotConf) (hdot : eff.dot = some conf) :
    (apply_ability ct rng atk p b n eff).2.active_dots =
      apply_dot b.active_dots conf
        (pyInt ((atk : ℚ) * conf.mult * (max 0 (1 - b.e_resistances conf.dtype)))) := by
  cases hh : eff.heal <;> cases hf : eff.heal_flat <;>
    simp [apply_ability, hdot, hh, hf]

/-- C8: casting an ability whose DoT name is already active on the enemy
never grows the enemy's active-DoT list; the existing entry (the first
with that name) has its remaining duration and per-tick damage
overwritten with the freshly computed cast-time snapshot. -/
theorem c8_dot_refresh (ct : Content) (rng : Rng) (p : PlayerState)
    (b : Battle) (n : String) (eff : AbilityEffect) (conf : DotConf)
    (heff : ct.abilities n = some eff) (hdot : eff.dot = some conf)
    (hlim : b.skill_uses n < eff.max_uses.getD 99)
    (hmem : conf.name ∈ b.active_dots.map (·.name)) :
    player_phase ct rng (get_total_stats ct p "attack") p b (.ability n) =
      some ((apply_ability ct rng (get_total_stats ct p "attack") p b n eff).1,
        (apply_ability ct rng (get_total_stats ct p "attack") p b n eff).2, true) ∧
    (apply_ability ct rng (get_total_stats ct p "attack") p b n eff).2.active_dots.length =
      b.active_dots.length ∧
    (apply_ability ct rng (get_total_stats ct p "attack") p b n eff).2.active_dots.find?
        (fun d => d.name = conf.name) =
      (b.active_dots.find? (fun d => d.name = conf.name)).map
        (fun d => { d with
                    duration := conf.duration,
                    damage := max 1 (pyInt ((get_total_stats ct p "attack" : ℚ) * conf.mult *
                      (max 0 (1 - b.e_resistances conf.dtype)))) }) := by
  refine ⟨?_, ?_, ?_⟩
  · simp [player_phase, heff, not_le.mpr hlim]
  · rw [apply_ability_dots ct rng _ p b n eff conf hdot]
    exact (apply_dot_of_active _ conf _ hmem).1
  · rw [apply_ability_dots ct rng _ p b n eff conf hdot]
    exact (apply_dot_of_active _ conf _ hmem).2

/-- Witness for C8: re-casting `Venom Strike` while its poison DoT is
active refreshes the single existing entry to duration 3 and damage 10. -/
theorem c8_dot_refresh_witness :
    player_phase sampleContent loRng (get_total_stats sampleContent samplePlayer "attack")
        samplePlayer sampleBattle (.ability "Venom Strike") =
      some ((apply_ability sampleContent loRng
          (get_total_stats sampleContent samplePlayer "attack") samplePlayer sampleBattle
          "Venom Strike" ⟨none, none, some ⟨"poison", "Poison", 1, 3⟩, none, none, none, none⟩).1,
        (apply_ability sampleContent loRng
          (get_total_stats sampleContent samplePlayer "attack") samplePlayer sampleBattle
          "Venom Strike" ⟨none, none, some ⟨"poison", "Poison", 1, 3⟩, none, none, none, none⟩).2, true) ∧
    (apply_ability sampleContent loRng
        (get_total_stats sampleContent samplePlayer "attack") samplePlayer sampleBattle
        "Venom Strike" ⟨none, none, some ⟨"poison", "Poison", 1, 3⟩, none, none, none, none⟩).2.active_dots.length =
      sampleBattle.active_dots.length ∧
    (apply_ability sampleContent loRng
        (get_total_stats sampleContent samplePlayer "attack") samplePlayer sampleBattle
        "Venom Strike" ⟨none, none, some ⟨"poison", "Poison", 1, 3⟩, none, none, none, none⟩).2.active_dots.find?
        (fun d => d.name = "Poison") =
      (sampleBattle.active_dots.find? (fun d => d.name = "Poison")).map
        (fun d => { d with
                    duration := 3,
                    damage := max 1 (pyInt ((get_total_stats sampleContent samplePlayer "attack" : ℚ) * 1 *
                      (max 0 (1 - sampleBattle.e_resistances "poison")))) }) :=
  c8_dot_refresh sampleContent loRng samplePlayer sampleBattle "Venom Strike"
    ⟨none, none, some ⟨"poison", "Poison", 1, 3⟩, none, none, none, none⟩
    ⟨"poison", "Poison", 1, 3⟩ rfl rfl (by decide) (by decide)

theorem apply_ability_uses (ct : Content) (rng : Rng) (atk : ℤ)
    (p : PlayerState) (b : Battle) (n : String) (eff : AbilityEffect) :
    (apply_ability ct rng atk p b n eff).2.skill_uses n = b.skill_uses n + 1 := by
  cases hd : eff.dot <;> cases hh : eff.heal <;> cases hf : eff.heal_flat <;>
    simp [apply_ability, hd, hh, hf]

/-- C5: the per-battle ability ceiling (`max_uses`, defaulting to 99 when
the content omits it).  Once the battle's use counter has reached the
ceiling the action is rejected with the player and battle snapshot
returned exactly as they were — no counter bump, no damage, no DoT, no
enemy turn; below the ceiling the cast goes through and increments the
per-battle counter. -/
theorem c5_use_ceiling (ct : Content) (rng : Rng) (p : PlayerState)
    (b : Battle) (n : String) (eff : AbilityEffect)
    (heff : ct.abilities n = some eff) :
    (eff.max_uses.getD 99 ≤ b.skill_uses n →
      handle_battle_turn ct rng p b (.ability n) = .refused p b) ∧
    (b.skill_uses n < eff.max_uses.getD 99 →
      (player_phase ct rng (get_total_stats ct p "attack") p b (.ability n)).map
          (fun x => x.2.1.skill_uses n) =
        some (b.skill_uses n + 1)) := by
  constructor
  · intro hle
    simp [handle_battle_turn, player_phase, heff, hle]
  · intro hlt
    simp [player_phase, heff, not_le.mpr hlt, apply_ability_uses]

/-- A battle snapshot in which `Fire Blast` (ceiling 2) has already been
cast twice. -/
def sampleBattleUsed : Battle :=
  { sampleBattle with skill_uses := fun _ => 2 }

/-- Witness for C5: the third `Fire Blast` in one battle is refused with
the state untouched, while the first cast increments its counter to 1. -/
theorem c5_use_ceiling_witness :
    handle_battle_turn sampleContent loRng samplePlayer sampleBattleUsed
        (.ability "Fire Blast") = .refused samplePlayer sampleBattleUsed ∧
    (player_phase sampleContent loRng
        (get_total_stats sampleContent samplePlayer "attack") samplePlayer sampleBattle
        (.ability "Fire Blast")).map (fun x => x.2.1.skill_uses "Fire Blast") =
      some (sampleBattle.skill_uses "Fire Blast" + 1) :=
  ⟨(c5_use_ceiling sampleContent loRng samplePlayer sampleBattleUsed "Fire Blast"
      ⟨some [⟨2, "fire"⟩], none, none, none, none, none, some 2⟩ rfl).1 (by decide),
    (c5_use_ceiling sampleContent loRng samplePlayer sampleBattle "Fire Blast"
      ⟨some [⟨2, "fire"⟩], none, none, none, none, none, some 2⟩ rfl).2 (by decide)⟩

/-- C4 counterexample: in `sampleBattle` (one active poison DoT ticking
for 2, enemy attack 10 against defense 0), submitting the unknown ability
`Dark Ritual` does NOT leave the battle unchanged with the turn
unconsumed: the handler falls through, the DoT tick lowers the enemy to
48 health and the enemy turn lowers the player to 91 — the turn is
consumed. -/
theorem c4_counterexample :
    sampleContent.abilities "Dark Ritual" = none ∧
    (handle_battle_turn sampleContent loRng samplePlayer sampleBattle
        (.ability "Dark Ritual")).contBattle.map (·.e_hp) = some 48 ∧
    (handle_battle_turn sampleContent loRng samplePlayer sampleBattle
        (.ability "Dark Ritual")).contBattle.map (·.p_hp) = some 91 := by
  have ha : ((0:ℚ) ≤ 9 / 10) := by norm_num
  have hb : (⌊(10:ℚ) * (9 / 10)⌋ : ℤ) = 9 := by norm_num
  refine ⟨rfl, ?_, ?_⟩ <;>
    simp [handle_battle_turn, player_phase, resolve_turn, dot_phase,
      handle_enemy_death, lose_battle, get_total_stats, pyInt, loRng,
      samplePlayer, sampleBattle, sampleContent, statSet, TurnOutcome.contBattle,
      ha, hb]

/-- C4 amended: an ability whose display name is absent from the content
table leaves the player action itself a silent no-op (no damage, no use
counter, no player mutation), but the turn is still consumed: the handler
falls through to the DoT tick and the enemy turn, behaving exactly like
any other unmatched battle input. -/
theorem c4_unknown_ability (ct : Content) (rng : Rng) (p : PlayerState)
    (b : Battle) (n : String) (h : ct.abilities n = none) :
    player_phase ct rng (get_total_stats ct p "attack") p b (.ability n) =
      some (p, b, true) ∧
    handle_battle_turn ct rng p b (.ability n) =
      handle_battle_turn ct rng p b .other := by
  constructor
  · simp [player_phase, h]
  · simp [handle_battle_turn, player_phase, h]

/-- Witness for C4's amended statement at the sample battle. -/
theorem c4_unknown_ability_witness :
    player_phase sampleContent loRng
        (get_total_stats sampleContent samplePlayer "attack") samplePlayer sampleBattle
        (.ability "Dark Ritual") = some (samplePlayer, sampleBattle, true) ∧
    handle_battle_turn sampleContent loRng samplePlayer sampleBattle
        (.ability "Dark Ritual") =
      handle_battle_turn sampleContent loRng samplePlayer sampleBattle .other :=
  c4_unknown_ability sampleContent loRng samplePlayer sampleBattle "Dark Ritual" rfl

/-- A sample player who owns one healing potion, and a battle in which the
player mirror is below maximum health. -/
def samplePlayerPotion : PlayerState :=
  { samplePlayer with inventory := ["health_potion"] }

/-- A battle snapshot with the player mirror at 80 health and no DoTs. -/
def sampleBattleHurt : Battle :=
  { sampleBattle with p_hp := 80, active_dots := [] }

/-- C1 counterexample: the claim says health is at most
`maxHealth(level, class)` after EVERY healing operation, including
in-battle ability heals.  But `Healing Strike` (flat heal 50) raises the
battle mirror unclamped, and surviving the enemy turn persists it:
max health is 100, yet the persisted health after the turn is 141. -/
theorem c1_counterexample :
    get_max_health sampleContent samplePlayer = 100 ∧
    (handle_battle_turn sampleContent loRng samplePlayer sampleBattle
        (.ability "Healing Strike")).contPlayer.map (fun q => q.base_stats "health") =
      some 141 ∧
    ¬ (141 : ℤ) ≤ 100 := by
  have ha : ((0:ℚ) ≤ 9 / 10) := by norm_num
  have hb : (⌊(10:ℚ) * (9 / 10)⌋ : ℤ) = 9 := by norm_num
  refine ⟨rfl, ?_, by norm_num⟩
  simp [handle_battle_turn, player_phase, apply_ability, ability_total_dmg,
    resolve_turn, dot_phase, handle_enemy_death, lose_battle, get_total_stats,
    pyInt, loRng, samplePlayer, sampleBattle, sampleContent, statSet,
    TurnOutcome.contPlayer, ha, hb]

/-- C1 amended: the health clamp holds for in-battle potion use (clamped
to max and written through), out-of-battle consumable use, and the
post-victory regeneration (also across the level-up health bonus) — but
NOT for in-battle ability heals, which are added to the battle mirror
unclamped (see the counterexample). -/
theorem c1_clamped_heals :
    (∀ (ct : Content) (rng : Rng) (atk : ℤ) (p : PlayerState) (b : Battle)
      (iid : String) (item : Item), ct.items iid = some item →
      0 < stat_of item.stats "health" →
      (player_phase ct rng atk p b (.potion iid)).elim True (fun x =>
        x.2.1.p_hp ≤ get_max_health ct p ∧
        x.1.base_stats "health" = x.2.1.p_hp)) ∧
    (∀ (ct : Content) (p : PlayerState) (iid : String) (item : Item) (heal : ℤ),
      alist_get item.stats "health" = some heal →
      (use_consumable_item ct p iid item).base_stats "health" ≤
        get_max_health ct (use_consumable_item ct p iid item)) ∧
    (∀ (ct : Content) (p : PlayerState) (e_experience : ℕ) (e_is_boss : Bool)
      (e_id : String) (cn : String) (c : ClassData),
      p.class_name = some cn → ct.classes cn = some c →
      p.active_quests = [] → 1 ≤ p.level →
      (win_battle ct p e_experience e_is_boss e_id).base_stats "health" ≤
        get_max_health ct (win_battle ct p e_experience e_is_boss e_id)) := by
  refine ⟨?_, ?_, ?_⟩
  · intro ct rng atk p b iid item hitem hheal
    simp only [player_phase, hitem]
    by_cases hin : iid ∈ p.inventory
    · rw [if_pos hin]
      by_cases hrefuse : 0 < stat_of item.stats "health" ∧ item.buffs = none ∧
          get_max_health ct p ≤ b.p_hp
      · rw [if_pos hrefuse]
        exact trivial
      · rw [if_neg hrefuse]
        simp only [if_pos hheal, Option.elim]
        cases hbuf : item.buffs <;>
          simp [add_effect, statSet, min_le_left]
    · rw [if_neg hin]
      exact trivial
  · intro ct p iid item heal hheal
    simp only [use_consumable_item, hheal]
    cases hbuf : item.buffs <;>
      simp [add_effect, statSet, get_max_health, min_le_left]
  · intro ct p e_experience e_is_boss e_id cn c hcn hcls hq hlvl
    by_cases hlv : p.level * 100 ≤ p.experience <;> cases e_is_boss
    all_goals
      simp only [win_battle, tick_effects, quest_pass, level_up_check,
        apply_rewards, statSet, get_max_health, hcn, hcls, hq, hlv,
        Option.bind, List.foldl, if_true, if_false]
    all_goals
      try simp [hcn, hcls, hlv, statSet]
    all_goals
      try omega

/-- Witness for the amended C1 at concrete inputs: a 30-health potion in
battle at 80 mirror health, the same consumable used from the inventory,
and a victory of the level-1 warrior. -/
theorem c1_clamped_heals_witness :
    (player_phase sampleContent loRng 10 samplePlayerPotion sampleBattleHurt
        (.potion "health_potion")).elim True (fun x =>
      x.2.1.p_hp ≤ get_max_health sampleContent samplePlayerPotion ∧
      x.1.base_stats "health" = x.2.1.p_hp) ∧
    (use_consumable_item sampleContent samplePlayer "health_potion"
        ⟨"Малое зелье", "consumable", 20, [("health", 30)], none⟩).base_stats "health" ≤
      get_max_health sampleContent
        (use_consumable_item sampleContent samplePlayer "health_potion"
          ⟨"Малое зелье", "consumable", 20, [("health", 30)], none⟩) ∧
    (win_battle sampleContent samplePlayer 20 false "wolf").base_stats "health" ≤
      get_max_health sampleContent (win_battle sampleContent samplePlayer 20 false "wolf") :=
  ⟨c1_clamped_heals.1 sampleContent loRng 10 samplePlayerPotion sampleBattleHurt
      "health_potion" ⟨"Малое зелье", "consumable", 20, [("health", 30)], none⟩
      rfl (by decide),
    c1_clamped_heals.2.1 sampleContent samplePlayer "health_potion"
      ⟨"Малое зелье", "consumable", 20, [("health", 30)], none⟩ 30 rfl,
    c1_clamped_heals.2.2 sampleContent samplePlayer 20 false "wolf" "warrior"
      ⟨100, 10, 0⟩ rfl rfl rfl (by decide)⟩

theorem quest_step_kc (ct : Content) (p : PlayerState) (q : String) :
    (quest_step ct p q).kill_count = p.kill_count := by
  cases hq : ct.quests q
  · simp [quest_step, hq]
  · simp only [quest_step, hq]
    split <;> rfl

theorem quest_step_active (ct : Content) (p : PlayerState) (q : String) :
    (quest_step ct p q).active_quests =
      if quest_met ct p.kill_count q then p.active_quests.erase q
      else p.active_quests := by
  cases hq : ct.quests q
  · simp [quest_step, quest_met, hq]
  · simp only [quest_step, quest_met, hq]
    split <;> rfl

theorem quest_step_completed (ct : Content) (p : PlayerState) (q : String) :
    (quest_step ct p q).completed_quests =
      if quest_met ct p.kill_count q then p.completed_quests ++ [q]
      else p.completed_quests := by
  cases hq : ct.quests q
  · simp [quest_step, quest_met, hq]
  · simp only [quest_step, quest_met, hq]
    split <;> rfl

/-- The experience a quest's rewards grant (0 when the quest id is
unknown or no experience reward is declared). -/
def quest_reward_exp (ct : Content) (q : String) : ℕ :=
  match ct.quests q with
  | some qq => qq.rewards.experience.getD 0
  | none => 0

/-- The gold a quest's rewards grant. -/
def quest_reward_gold (ct : Content) (q : String) : ℤ :=
  match ct.quests q with
  | some qq => qq.rewards.gold.getD 0
  | none => 0

theorem quest_step_exp (ct : Content) (p : PlayerState) (q : String) :
    (quest_step ct p q).experience =
      p.experience + (if quest_met ct p.kill_count q then quest_reward_exp ct q else 0) := by
  cases hq : ct.quests q
  · simp [quest_step, quest_met, hq]
  · simp only [quest_step, quest_met, quest_reward_exp, hq]
    split <;> simp [apply_rewards]

theorem quest_step_gold (ct : Content) (p : PlayerState) (q : String) :
    (quest_step ct p q).gold =
      p.gold + (if quest_met ct p.kill_count q then quest_reward_gold ct q else 0) := by
  cases hq : ct.quests q
  · simp [quest_step, quest_met, hq]
  · simp only [quest_step, quest_met, quest_reward_gold, hq]
    split <;> simp [apply_rewards]

theorem quest_fold_kc (ct : Content) (l : List String) (acc : PlayerState) :
    (l.foldl (quest_step ct) acc).kill_count = acc.kill_count := by
  induction l generalizing acc with
  | nil => rfl
  | cons q t ih =>
    rw [List.foldl_cons, ih, quest_step_kc]

theorem quest_fold_completed (ct : Content) (l : List String) (acc : PlayerState) :
    (l.foldl (quest_step ct) acc).completed_quests =
      acc.completed_quests ++ l.filter (fun q => quest_met ct acc.kill_count q) := by
  induction l generalizing acc with
  | nil => simp
  | cons q t ih =>
    rw [List.foldl_cons, ih, quest_step_kc, quest_step_completed, List.filter_cons]
    by_cases h : quest_met ct acc.kill_count q <;> simp [h]

theorem quest_fold_exp (ct : Content) (l : List String) (acc : PlayerState) :
    (l.foldl (quest_step ct) acc).experience =
      acc.experience +
        ((l.filter (fun q => quest_met ct acc.kill_count q)).map (quest_reward_exp ct)).sum := by
  induction l generalizing acc with
  | nil => simp
  | cons q t ih =>
    rw [List.foldl_cons, ih, quest_step_kc, quest_step_exp, List.filter_cons]
    by_cases h : quest_met ct acc.kill_count q <;> simp [h] <;> omega

theorem quest_fold_gold (ct : Content) (l : List String) (acc : PlayerState) :
    (l.foldl (quest_step ct) acc).gold =
      acc.gold +
        ((l.filter (fun q => quest_met ct acc.kill_count q)).map (quest_reward_gold ct)).sum := by
  induction l generalizing acc with
  | nil => simp
  | cons q t ih =>
    rw [List.foldl_cons, ih, quest_step_kc, quest_step_gold, List.filter_cons]
    by_cases h : quest_met ct acc.kill_count q <;> simp [h] <;> ring

theorem quest_fold_active (ct : Content) (l : List String) (acc : PlayerState) :
    (l.foldl (quest_step ct) acc).active_quests =
      l.foldl (fun A q => if quest_met ct acc.kill_count q then A.erase q else A)
        acc.active_quests := by
  induction l generalizing acc with
  | nil => rfl
  | cons q t ih =>
    rw [List.foldl_cons, ih, quest_step_kc, quest_step_active, List.foldl_cons]

theorem fold_erase_cons (met : String → Bool) (t : List String) :
    ∀ (A : List String) (a : String), a ∉ t →
      t.foldl (fun A q => if met q then A.erase q else A) (a :: A) =
        a :: t.foldl (fun A q => if met q then A.erase q else A) A := by
  induction t with
  | nil => intro A a _; rfl
  | cons r t' ih =>
    intro A a ha
    have hra : a ≠ r := fun h => ha (h ▸ List.mem_cons_self r t')
    have hat' : a ∉ t' := fun h => ha (List.mem_cons_of_mem r h)
    rw [List.foldl_cons, List.foldl_cons]
    by_cases hm : met r
    · rw [if_pos hm, if_pos hm, List.erase_cons_tail]
      · exact ih (A.erase r) a hat'
      · simp [hra]
    · rw [if_neg hm, if_neg hm]
      exact ih A a hat'

theorem fold_erase_filter (met : String → Bool) :
    ∀ l : List String, l.Nodup →
      l.foldl (fun A q => if met q then A.erase q else A) l =
        l.filter (fun q => ! met q) := by
  intro l hnd
  induction l with
  | nil => rfl
  | cons q t ih =>
    have hqt : q ∉ t := (List.nodup_cons.mp hnd).1
    have hndt : t.Nodup := (List.nodup_cons.mp hnd).2
    rw [List.foldl_cons, List.filter_cons]
    by_cases hm : met q
    · rw [if_pos hm, List.erase_cons_head]
      simp only [hm, Bool.not_true, if_neg (by simp : ¬ (false = true))]
      exact ih hndt
    · rw [if_neg hm]
      rw [fold_erase_cons met t t q hqt]
      rw [ih hndt]
      simp [hm]

/-- C3: the post-victory quest scan.  With a duplicate-free active list:
a quest leaves the active list exactly when all its objectives are met by
the kill counts (never before); exactly those quests are appended to the
completed list (each exactly once); the pass is atomic — removal, append
and reward application happen per quest in one step, and the kill counts
are untouched by the pass, so every quest is evaluated against the same
counts and completed quests are not re-checked recursively. -/
theorem c3_quest_completion (ct : Content) (p : PlayerState)
    (hnd : p.active_quests.Nodup) :
    (quest_pass ct p).active_quests =
      p.active_quests.filter (fun q => ! quest_met ct p.kill_count q) ∧
    (quest_pass ct p).completed_quests =
      p.completed_quests ++ p.active_quests.filter (fun q => quest_met ct p.kill_count q) ∧
    (quest_pass ct p).kill_count = p.kill_count ∧
    (quest_pass ct p).experience = p.experience +
      ((p.active_quests.filter (fun q => quest_met ct p.kill_count q)).map
        (quest_reward_exp ct)).sum ∧
    (quest_pass ct p).gold = p.gold +
      ((p.active_quests.filter (fun q => quest_met ct p.kill_count q)).map
        (quest_reward_gold ct)).sum := by
  refine ⟨?_, ?_, ?_, ?_, ?_⟩
  · rw [quest_pass, quest_fold_active, fold_erase_filter _ _ hnd]
  · exact quest_fold_completed ct p.active_quests p
  · exact quest_fold_kc ct p.active_quests p
  · exact quest_fold_exp ct p.active_quests p
  · exact quest_fold_gold ct p.active_quests p

/-- A player with the wolf-hunt quest active and three recorded wolf
kills. -/
def samplePlayerQuest : PlayerState :=
  { samplePlayer with
    active_quests := ["wolf_hunt"]
    kill_count := fun k => if k = "wolf" then 3 else 0 }

/-- Witness for C3: with 3 wolf kills the wolf-hunt quest (objective
`wolf: 3`) moves from active to completed and its rewards apply. -/
theorem c3_quest_completion_witness :
    (quest_pass sampleContent samplePlayerQuest).active_quests =
      samplePlayerQuest.active_quests.filter
        (fun q => ! quest_met sampleContent samplePlayerQuest.kill_count q) ∧
    (quest_pass sampleContent samplePlayerQuest).completed_quests =
      samplePlayerQuest.completed_quests ++
        samplePlayerQuest.active_quests.filter
          (fun q => quest_met sampleContent samplePlayerQuest.kill_count q) ∧
    (quest_pass sampleContent samplePlayerQuest).kill_count =
      samplePlayerQuest.kill_count ∧
    (quest_pass sampleContent samplePlayerQuest).experience =
      samplePlayerQuest.experience +
        ((samplePlayerQuest.active_quests.filter
          (fun q => quest_met sampleContent samplePlayerQuest.kill_count q)).map
            (quest_reward_exp sampleContent)).sum ∧
    (quest_pass sampleContent samplePlayerQuest).gold =
      samplePlayerQuest.gold +
        ((samplePlayerQuest.active_quests.filter
          (fun q => quest_met sampleContent samplePlayerQuest.kill_count q)).map
            (quest_reward_gold sampleContent)).sum :=
  c3_quest_completion sampleContent samplePlayerQuest (by decide)

/-- C6: `win_battle` increments the kill count for the defeated enemy id
by exactly 1 (and no other id), adds the enemy's experience to the
player's experience, and adds `floor(experience * 0.8)` gold plus a flat
100 gold for a boss; a boss also grants one artifact slot and is inserted
into the defeated-boss set, while a non-boss changes neither.  Stated for
a victory that completes no quest (no active quests) and crosses no
level-up threshold, so that the battle's own reward contribution is
isolated. -/
theorem c6_victory_rewards (ct : Content) (p : PlayerState) (e_experience : ℕ)
    (e_is_boss : Bool) (e_id : String)
    (hq : p.active_quests = []) (hlv : p.experience < p.level * 100) :
    (win_battle ct p e_experience e_is_boss e_id).kill_count e_id =
      p.kill_count e_id + 1 ∧
    (∀ k, k ≠ e_id →
      (win_battle ct p e_experience e_is_boss e_id).kill_count k = p.kill_count k) ∧
    (win_battle ct p e_experience e_is_boss e_id).experience =
      p.experience + e_experience ∧
    (win_battle ct p e_experience e_is_boss e_id).gold =
      p.gold + (⌊(e_experience : ℚ) * (4/5)⌋ + (if e_is_boss then 100 else 0)) ∧
    (e_is_boss = true →
      (win_battle ct p e_experience e_is_boss e_id).artifact_slots =
        p.artifact_slots + 1 ∧
      e_id ∈ (win_battle ct p e_experience e_is_boss e_id).defeated_bosses) ∧
    (e_is_boss = false →
      (win_battle ct p e_experience e_is_boss e_id).artifact_slots =
        p.artifact_slots ∧
      (win_battle ct p e_experience e_is_boss e_id).defeated_bosses =
        p.defeated_bosses) := by
  have hlv' : ¬ (p.level * 100 ≤ p.experience) := by omega
  have hpy : pyInt ((e_experience : ℚ) * (4/5)) = ⌊(e_experience : ℚ) * (4/5)⌋ :=
    pyInt_of_nonneg (by positivity)
  refine ⟨?_, ?_, ?_, ?_, ?_, ?_⟩
  · cases e_is_boss <;>
      simp [win_battle, quest_pass, tick_effects, level_up_check, apply_rewards,
        statSet, hq, hlv', hpy]
  · intro k hk
    cases e_is_boss <;>
      simp [win_battle, quest_pass, tick_effects, level_up_check, apply_rewards,
        statSet, hq, hlv', hpy, hk]
  · cases e_is_boss <;>
      simp [win_battle, quest_pass, tick_effects, level_up_check, apply_rewards,
        statSet, hq, hlv', hpy]
  · cases e_is_boss <;>
      simp [win_battle, quest_pass, tick_effects, level_up_check, apply_rewards,
        statSet, hq, hlv', hpy]
  · intro hb
    subst hb
    by_cases hmem : e_id ∈ p.defeated_bosses <;>
      simp [win_battle, quest_pass, tick_effects, level_up_check, apply_rewards,
        statSet, hq, hlv', hpy, hmem]
  · intro hb
    subst hb
    simp [win_battle, quest_pass, tick_effects, level_up_check, apply_rewards,
      statSet, hq, hlv', hpy]

/-- Witness for C6: the level-1 sample player defeats a boss worth 20
experience: kill count 1, experience +20, gold +(16+100), one new
artifact slot, boss recorded. -/
theorem c6_victory_rewards_witness :
    (win_battle sampleContent samplePlayer 20 true "dragon").kill_count "dragon" =
      samplePlayer.kill_count "dragon" + 1 ∧
    (∀ k, k ≠ "dragon" →
      (win_battle sampleContent samplePlayer 20 true "dragon").kill_count k =
        samplePlayer.kill_count k) ∧
    (win_battle sampleContent samplePlayer 20 true "dragon").experience =
      samplePlayer.experience + 20 ∧
    (win_battle sampleContent samplePlayer 20 true "dragon").gold =
      samplePlayer.gold + (⌊((20 : ℕ) : ℚ) * (4/5)⌋ + (if true then 100 else 0)) ∧
    (true = true →
      (win_battle sampleContent samplePlayer 20 true "dragon").artifact_slots =
        samplePlayer.artifact_slots + 1 ∧
      "dragon" ∈ (win_battle sampleContent samplePlayer 20 true "dragon").defeated_bosses) ∧
    (true = false →
      (win_battle sampleContent samplePlayer 20 true "dragon").artifact_slots =
        samplePlayer.artifact_slots ∧
      (win_battle sampleContent samplePlayer 20 true "dragon").defeated_bosses =
        samplePlayer.defeated_bosses) :=
  c6_victory_rewards sampleContent samplePlayer 20 true "dragon" rfl (by decide)

theorem apply_ability_e_fields (ct : Content) (rng : Rng) (atk : ℤ)
    (p : PlayerState) (b : Battle) (n : String) (eff : AbilityEffect) :
    (apply_ability ct rng atk p b n eff).2.e_phases = b.e_phases ∧
    (apply_ability ct rng atk p b n eff).2.e_experience = b.e_experience ∧
    (apply_ability ct rng atk p b n eff).2.e_is_boss = b.e_is_boss ∧
    (apply_ability ct rng atk p b n eff).2.e_id = b.e_id ∧
    (apply_ability ct rng atk p b n eff).1.base_stats = p.base_stats := by
  cases hd : eff.dot <;> cases hh : eff.heal <;> cases hf : eff.heal_flat <;>
    cases hdb : eff.defense_buff <;>
      simp [apply_ability, add_effect, hd, hh, hf, hdb]

/-- C10 (implicit frame effect): when an ability both heals the caster and
lands the killing blow, the heal is applied only to the battle snapshot's
player-health mirror (`p_hp`), which is never written back on the victory
path; `win_battle` receives the player aggregate with its persisted health
unchanged, so the ability's heal never reaches the persisted state. -/
theorem c10_killing_blow_heal_lost (ct : Content) (rng : Rng) (p : PlayerState)
    (b : Battle) (n : String) (eff : AbilityEffect)
    (heff : ct.abilities n = some eff)
    (hlim : b.skill_uses n < eff.max_uses.getD 99)
    (hkill : (apply_ability ct rng (get_total_stats ct p "attack") p b n eff).2.e_hp ≤ 0)
    (hph : b.e_phases = []) :
    handle_battle_turn ct rng p b (.ability n) =
      .victory (win_battle ct
        (apply_ability ct rng (get_total_stats ct p "attack") p b n eff).1
        b.e_experience b.e_is_boss b.e_id) ∧
    (apply_ability ct rng (get_total_stats ct p "attack") p b n eff).1.base_stats "health" =
      p.base_stats "health" ∧
    (apply_ability ct rng (get_total_stats ct p "attack") p b n eff).2.p_hp =
      b.p_hp +
        (match eff.heal with
          | some hr => pyInt
              ((ability_total_dmg rng (get_total_stats ct p "attack")
                { b with skill_uses := fun k =>
                    if k = n then b.skill_uses n + 1 else b.skill_uses k } eff : ℚ) * hr)
          | none => 0) +
        eff.heal_flat.getD 0 := by
  obtain ⟨hphs, hexp, hboss, hid, hbase⟩ :=
    apply_ability_e_fields ct rng (get_total_stats ct p "attack") p b n eff
  refine ⟨?_, ?_, ?_⟩
  · simp only [handle_battle_turn, player_phase, heff]
    rw [if_neg (not_le.mpr hlim)]
    simp only [resolve_turn]
    rw [if_pos ⟨trivial, hkill⟩]
    simp only [handle_enemy_death]
    rw [if_neg (by simp [hphs, hph])]
    rw [hexp, hboss, hid]
  · rw [hbase]
  · cases hd : eff.dot <;> cases hh : eff.heal <;> cases hf : eff.heal_flat <;>
      simp [apply_ability, ability_total_dmg, add_effect, hd, hh, hf, add_assoc]

/-- A lethal drain ability: two physical damage layers' worth (multiplier
2), healing half the damage dealt plus 7 flat. -/
def reaperEff : AbilityEffect :=
  ⟨some [⟨2, "physical"⟩], none, none, some (1/2), some 7, none, none⟩

/-- A battle against the wolf with only 10 enemy health left. -/
def sampleBattleKill : Battle :=
  { sampleBattle with e_hp := 10, active_dots := [] }

/-- Witness for C10: `Reaper Drain` kills the 10-health wolf while
healing; the victory path receives the persisted health untouched while
the battle mirror absorbed the heal. -/
theorem c10_killing_blow_heal_lost_witness :
    handle_battle_turn sampleContent loRng samplePlayer sampleBattleKill
        (.ability "Reaper Drain") =
      .victory (win_battle sampleContent
        (apply_ability sampleContent loRng
          (get_total_stats sampleContent samplePlayer "attack") samplePlayer
          sampleBattleKill "Reaper Drain" reaperEff).1
        sampleBattleKill.e_experience sampleBattleKill.e_is_boss
        sampleBattleKill.e_id) ∧
    (apply_ability sampleContent loRng
        (get_total_stats sampleContent samplePlayer "attack") samplePlayer
        sampleBattleKill "Reaper Drain" reaperEff).1.base_stats "health" =
      samplePlayer.base_stats "health" ∧
    (apply_ability sampleContent loRng
        (get_total_stats sampleContent samplePlayer "attack") samplePlayer
        sampleBattleKill "Reaper Drain" reaperEff).2.p_hp =
      sampleBattleKill.p_hp +
        pyInt ((ability_total_dmg loRng
          (get_total_stats sampleContent samplePlayer "attack")
          { sampleBattleKill with skill_uses := fun k =>
              if k = "Reaper Drain" then sampleBattleKill.skill_uses "Reaper Drain" + 1
              else sampleBattleKill.skill_uses k } reaperEff : ℚ) * (1/2)) + 7 :=
  c10_killing_blow_heal_lost sampleContent loRng samplePlayer sampleBattleKill
    "Reaper Drain" reaperEff rfl (by decide)
    (by
      simp [apply_ability, ability_total_dmg, calculate_single_layer_damage,
        pyInt, loRng, get_total_stats, samplePlayer, sampleContent,
        sampleBattleKill, sampleBattle, statSet, reaperEff]
      norm_num)
    rfl

theorem player_phase_preserves (ct : Content) (rng : Rng) (atk : ℤ)
    (p : PlayerState) (b : Battle) (act : BattleAction)
    (p1 : PlayerState) (b1 : Battle) (ck : Bool)
    (h : player_phase ct rng atk p b act = some (p1, b1, ck)) :
    p1.class_name = p.class_name ∧ p1.level = p.level ∧
    p1.last_location = p.last_location := by
  cases act with
  | attack =>
    simp only [player_phase, Option.some.injEq, Prod.mk.injEq] at h
    obtain ⟨hp, _, _⟩ := h
    subst hp
    exact ⟨rfl, rfl, rfl⟩
  | other =>
    simp only [player_phase, Option.some.injEq, Prod.mk.injEq] at h
    obtain ⟨hp, _, _⟩ := h
    subst hp
    exact ⟨rfl, rfl, rfl⟩
  | ability n =>
    cases heff : ct.abilities n with
    | none =>
      simp only [player_phase, heff, Option.some.injEq, Prod.mk.injEq] at h
      obtain ⟨hp, _, _⟩ := h
      subst hp
      exact ⟨rfl, rfl, rfl⟩
    | some eff =>
      simp only [player_phase, heff] at h
      split at h
      · exact absurd h (by simp)
      · simp only [Option.some.injEq, Prod.mk.injEq] at h
        obtain ⟨hp, _, _⟩ := h
        subst hp
        cases hdb : eff.defense_buff <;>
          simp [apply_ability, add_effect, hdb]
  | potion iid =>
    cases hitem : ct.items iid with
    | none => simp [player_phase, hitem] at h
    | some item =>
      simp only [player_phase, hitem] at h
      split at h
      · split at h
        · exact absurd h (by simp)
        · simp only [Option.some.injEq, Prod.mk.injEq] at h
          obtain ⟨hp, _, _⟩ := h
          subst hp
          cases hbuf : item.buffs <;>
            by_cases hheal : (0:ℤ) < stat_of item.stats "health" <;>
              simp [add_effect, statSet, hbuf, hheal]
      · simp at h

/-- C7: whenever a processed battle input ends in defeat (the enemy turn
drove the battle health mirror to 0 or below), the session carries two
successive states: during recovery all temporary effects are cleared,
health is reset to the class/level maximum `base + (level-1)*10`, and the
player is placed in the dedicated recovery camp; the post-delay state
returns the player to the location occupied immediately before the battle
began (`last_location`, not necessarily the current city).  The fixed
real-time delay itself (15 s of wall clock) is modelled as the ordering of
the two states. -/
theorem c7_defeat_postconditions (ct : Content) (rng : Rng) (p : PlayerState)
    (b : Battle) (act : BattleAction) (pc pa : PlayerState)
    (cn : String) (c : ClassData)
    (hdef : handle_battle_turn ct rng p b act = .defeated pc pa)
    (hcn : p.class_name = some cn) (hcls : ct.classes cn = some c)
    (hloc : (ct.locations p.last_location).isSome) :
    pc.active_effects = [] ∧
    pc.base_stats "health" = c.base_health + ((p.level - 1) * 10 : ℕ) ∧
    pc.location = "player_camp" ∧
    pa.location = p.last_location := by
  cases hpp : player_phase ct rng (get_total_stats ct p "attack") p b act with
  | none =>
    rw [handle_battle_turn] at hdef
    simp only [hpp] at hdef
    exact absurd hdef (by simp)
  | some x =>
    obtain ⟨p1, b1, ck⟩ := x
    obtain ⟨hpcn, hplv, hpll⟩ :=
      player_phase_preserves ct rng (get_total_stats ct p "attack") p b act p1 b1 ck hpp
    rw [handle_battle_turn] at hdef
    simp only [hpp] at hdef
    rw [resolve_turn] at hdef
    split at hdef
    · rw [handle_enemy_death] at hdef
      split at hdef
      · exact absurd hdef (by simp)
      · exact absurd hdef (by simp)
    · dsimp only at hdef
      split at hdef
      · rw [handle_enemy_death] at hdef
        split at hdef
        · exact absurd hdef (by simp)
        · exact absurd hdef (by simp)
      · split at hdef
        · simp only [TurnOutcome.defeated.injEq] at hdef
          obtain ⟨hpc, hpa⟩ := hdef
          have hdest : (if (ct.locations p1.last_location).isSome then p1.last_location
              else "village_square") = p.last_location := by
            rw [hpll, if_pos hloc]
          refine ⟨?_, ?_, ?_, ?_⟩
          · rw [← hpc]
            simp [lose_battle]
          · rw [← hpc]
            simp only [lose_battle, statSet, defeat_health, hpcn, hcn, hplv,
              Option.bind, hcls]
            simp [hcls]
          · rw [← hpc]
            simp [lose_battle]
          · rw [← hpa]
            simp only [lose_battle, show_location_update, hdest]
            rw [if_pos hloc]
        · exact absurd hdef (by simp)

/-- A battle in which the player mirror is down to 5 health: the next
enemy turn is lethal. -/
def sampleBattleLow : Battle :=
  { sampleBattle with p_hp := 5 }

/-- Witness for C7: the level-1 warrior (100 max health) attacks at 5
mirror health and is defeated by the counterattack; effects are cleared,
health resets to 100, the player recovers in the camp and afterwards
returns to the forest entered before the battle. -/
theorem c7_defeat_postconditions_witness :
    (lose_battle sampleContent samplePlayer).1.active_effects = [] ∧
    (lose_battle sampleContent samplePlayer).1.base_stats "health" =
      (100 : ℤ) + ((samplePlayer.level - 1) * 10 : ℕ) ∧
    (lose_battle sampleContent samplePlayer).1.location = "player_camp" ∧
    (lose_battle sampleContent samplePlayer).2.location = samplePlayer.last_location :=
  c7_defeat_postconditions sampleContent loRng samplePlayer sampleBattleLow .attack
    (lose_battle sampleContent samplePlayer).1 (lose_battle sampleContent samplePlayer).2
    "warrior" ⟨100, 10, 0⟩
    (by
      have ha : ((0:ℚ) ≤ 9 / 10) := by norm_num
      have hb : (⌊(10:ℚ) * (9 / 10)⌋ : ℤ) = 9 := by norm_num
      have hc : ((0:ℚ) ≤ 10 * (4 / 5)) := by norm_num
      have hd : (⌊(10:ℚ) * (4 / 5)⌋ : ℤ) = 8 := by norm_num
      simp [handle_battle_turn, player_phase, resolve_turn, dot_phase,
        calculate_single_layer_damage, pyInt, loRng, get_total_stats,
        samplePlayer, sampleContent, sampleBattle, sampleBattleLow, statSet,
        ha, hb, hc, hd])
    rfl rfl rfl
